import Mathlib

/-!
Shallow embedding of the xfdr flight-data conversion pipeline
(src/garmin.rs, src/fdr.rs) and proofs about the claims of its
natural-language specification.

A polars `DataFrame` is modelled as an ordered list of named, typed
columns, each column an ordered list of nullable values.  Fallible
polars/std operations return an explicit result type; `usize`
arithmetic is modelled as wrapping arithmetic modulo 2^64 (the
behaviour of release builds; debug builds panic on overflow, which is
noted where relevant).
-/

namespace Xfdr

/-- The polars data types used by this program
(String, Int64, Float64, Date, Datetime). -/
inductive DType
| text
| int
| float
| date
| datetime
deriving DecidableEq

/-- A cell value of one of the supported data types.  Float64 cells are
modelled exactly (the program never does arithmetic on them). -/
inductive Val
| str (s : String)
| int (n : Int)
| float (q : ℚ)
| date (d : Int)
| dt (us : Int)
deriving DecidableEq

/-- One named, typed column of nullable values (a polars Series). -/
structure Column where
  name : String
  dtype : DType
  vals : List (Option Val)
deriving DecidableEq

/-- A polars DataFrame: an ordered list of columns. -/
structure Table where
  cols : List Column
deriving DecidableEq

/-- The `DataFrame::width`: the number of columns. -/
def Table.width (df : Table) : Nat := df.cols.length

/-- The `DataFrame::height`: the length of the first column (0 if none). -/
def Table.height (df : Table) : Nat :=
  match df.cols with
  | [] => 0
  | c :: _ => c.vals.length

/-- The `DataFrame::get_column_names`, in column order. -/
def columnNames (df : Table) : List String := df.cols.map (fun c => c.name)

/-- Errors raised by the modelled polars operations. -/
inductive PErr
| columnNotFound (n : String)
| duplicate
| typeMismatch
| shapeMismatch
| computeError
deriving DecidableEq

/-- Outcome of a fallible Rust computation: a panic (abnormal
termination), a returned error, or a returned value. -/
inductive Res (ε α : Type)
| panic (msg : String)
| err (e : ε)
| ok (a : α)
deriving DecidableEq

/-- Whether a computation panicked. -/
def Res.isPanic {ε α : Type} : Res ε α → Bool
| .panic _ => true
| _ => false

/-- Rust `str::trim` on a character list: strip whitespace at both ends. -/
def trimWs (l : List Char) : List Char :=
  ((l.dropWhile (fun c => c.isWhitespace)).reverse.dropWhile (fun c => c.isWhitespace)).reverse

/-- Rust `str::trim` on a string. -/
def rust_trim (s : String) : String := String.mk (trimWs s.data)

/-- The `clean_column_name` (garmin.rs): trim whitespace from a column name. -/
def clean_column_name (name : String) : String := rust_trim name

/-- The `strip_column_names` (garmin.rs): rename every column to its
whitespace-trimmed name.  (`set_column_names` with the trimmed names.) -/
def strip_column_names (df : Table) : Table :=
  ⟨df.cols.map (fun c => { c with name := clean_column_name c.name })⟩

/-- Trim whitespace from a string cell, leaving other cells unchanged. -/
def trimVal : Val → Val
| .str s => .str (rust_trim s)
| v => v

/-- The `clean_strings` (garmin.rs): trim whitespace from every non-null
value of every String-typed column; other columns are untouched. -/
def clean_strings (df : Table) : Table :=
  ⟨df.cols.map (fun c =>
    if c.dtype = DType.text then { c with vals := c.vals.map (Option.map trimVal) } else c)⟩

/-- The `Series::is_not_null`: the boolean mask of non-null positions. -/
def isNotNull (c : Column) : List Bool := c.vals.map (fun v => v.isSome)

/-- Pointwise OR of two boolean masks (`BooleanChunked | BooleanChunked`). -/
def orMask (a b : List Bool) : List Bool := List.zipWith or a b

/-- The `ChunkedArray::filter`: keep the entries whose mask bit is true. -/
def applyMask {α : Type} : List Bool → List α → List α
| [], _ => []
| _, [] => []
| true :: m, v :: vs => v :: applyMask m vs
| false :: m, _ :: vs => applyMask m vs

/-- The fold in `remove_empty_rows` (garmin.rs): OR together the
not-null masks of all columns; `none` when there are no columns. -/
def maskOf (cols : List Column) : Option (List Bool) :=
  cols.foldl (fun acc s =>
    match acc with
    | none => some (isNotNull s)
    | some m => some (orMask m (isNotNull s))) none

/-- Filter one column by a row mask. -/
def filterCol (m : List Bool) (c : Column) : Column :=
  { c with vals := applyMask m c.vals }

/-- The `remove_empty_rows` (garmin.rs): drop the rows in which every
column is null.  The `.unwrap()` on the folded mask panics when the
table has no columns. -/
def remove_empty_rows (df : Table) : Res PErr Table :=
  match maskOf df.cols with
  | none => .panic "called Option::unwrap on a None value"
  | some m => .ok ⟨df.cols.map (filterCol m)⟩

/-- The `REQUIRED_COLS` constant of `clean_dataframe` (garmin.rs). -/
def requiredCols : List String :=
  ["timestamp", "Longitude", "Latitude", "AltB", "HDG", "Pitch", "Roll"]

/-- The `DataFrame::column`: find a column by name. -/
def find_column (df : Table) (n : String) : Option Column :=
  df.cols.find? (fun c => c.name = n)

/-- Select the listed columns in the listed order, failing on the
first name that is absent from the table. -/
def selectCols (df : Table) : List String → Res PErr (List Column)
| [] => .ok []
| n :: ns =>
  match find_column df n, selectCols df ns with
  | some c, .ok cs => .ok (c :: cs)
  | some _, .err e => .err e
  | some _, .panic m => .panic m
  | none, _ => .err (.columnNotFound n)

/-- The reordering select of `clean_dataframe` (garmin.rs):
`select([cols(REQUIRED_COLS), col("*").exclude(REQUIRED_COLS)])`.
The lazy engine rejects frames with duplicate column names; a missing
required column is a column-not-found error. -/
def reorder_columns (df : Table) : Res PErr Table :=
  if (columnNames df).Nodup then
    match selectCols df requiredCols with
    | .panic m => .panic m
    | .err e => .err e
    | .ok req => .ok ⟨req ++ df.cols.filter (fun c => !requiredCols.contains c.name)⟩
  else .err .duplicate

/-- The `clean_dataframe` (garmin.rs): normalize names, trim string values,
drop all-null rows, then move the required columns to the front. -/
def clean_dataframe (df : Table) : Res PErr Table :=
  match remove_empty_rows (clean_strings (strip_column_names df)) with
  | .panic m => .panic m
  | .err e => .err e
  | .ok df3 => reorder_columns df3

/-- The `DataRef` (fdr.rs): an X-Plane dataref path plus a scale factor
(f64 scale factors are modelled exactly as rationals). -/
structure DataRef where
  path : String
  scale : ℚ
deriving DecidableEq

/-- The `DataRef::new`: scale defaults to 1.0. -/
def DataRef.new (path : String) : DataRef := ⟨path, 1⟩

/-- The `DataRef::with_scale`. -/
def DataRef.with_scale (d : DataRef) (scale : ℚ) : DataRef := { d with scale := scale }

/-- The `FlightDataError` (fdr.rs). -/
inductive FlightDataError
| missingDrefs (names : List String)
| unknownColumn (n : String)
| insufficientData
deriving DecidableEq

/-- The `FlightDataBlock` (fdr.rs): the OutputBlock handed to the writer. -/
structure FlightDataBlock where
  drefs : List DataRef
  data : Table
deriving DecidableEq

/-- 2^64, the modulus of `usize` arithmetic. -/
def USIZE : Nat := 2 ^ 64

/-- Wrapping `usize` subtraction `a - b` (for `b ≤ 2^64`), the release-build
behaviour of Rust's `-` on unsigned integers; debug builds panic when `b > a`. -/
def wrapSub (a b : Nat) : Nat := (a + (USIZE - b)) % USIZE

/-- The `FlightDataBlock::new` (fdr.rs): require `data.width() - 7 == drefs.len()`
(computed with `usize` subtraction), else report the post-mandatory column
names as missing drefs. -/
def FlightDataBlock.new (drefs : List DataRef) (data : Table) :
    Res FlightDataError FlightDataBlock :=
  if wrapSub data.width 7 ≠ drefs.length then
    .err (.missingDrefs ((columnNames data).drop 7))
  else .ok ⟨drefs, data⟩

/-- The `FDRConfiguration` (fdr.rs); field names as in the source. -/
structure FDRConfiguration where
  aircraft_model : String
  defaut_tail_number : String
  tail_number_override : Option String
  strict : Bool
  auto_drefs : Bool
  allow_nulls : Bool
deriving DecidableEq

/-- The static column-name → DataRef map of `build_dref_map` (garmin.rs),
as the lookup function `HashMap::get` evaluates. -/
def build_dref_map : String → Option DataRef
| "BaroA" => some (DataRef.new "sim/cockpit2/gauges/actuators/barometer_setting_in_hg_pilot")
| "AltMSL" => some (DataRef.new "sim/cockpit2/gauges/indicators/altitude_ft_pilot")
| "OAT" => some (DataRef.new "sim/cockpit2/temperature/outside_air_temp_degc")
| "IAS" => some (DataRef.new "sim/cockpit2/gauges/indicators/airspeed_kts_pilot")
| "GndSpd" => some (DataRef.new "sim/cockpit2/gauges/indicators/ground_speed_kt")
| "TAS" => some (DataRef.new "sim/cockpit2/gauges/indicators/true_airspeed_kts_pilot")
| "VSpd" => some (DataRef.new "sim/cockpit2/gauges/indicators/vvi_fpm_pilot")
| "TRK" => some (DataRef.new "sim/cockpit2/gauges/indicators/ground_track_true_pilot")
| "bus1volts" => some (DataRef.new "sim/cockpit2/electrical/bus_volts[0]")
| "alt1amps" => some (DataRef.new "sim/cockpit2/electrical/generator_amps")
| "FQtyLlbs" => some ((DataRef.new "sim/flightmodel/weight/m_fuel[0]").with_scale 0.45359237)
| "FQtyRlbs" => some ((DataRef.new "sim/flightmodel/weight/m_fuel[1]").with_scale 0.45359237)
| "FQtyL" => some ((DataRef.new "sim/cockpit2/fuel/fuel_quantity[0]").with_scale 2.73062384)
| "FQtyR" => some ((DataRef.new "sim/cockpit2/fuel/fuel_quantity[1]").with_scale 2.73062384)
| "E1 FFlow" => some ((DataRef.new "sim/cockpit2/engine/indicators/fuel_flow_kg_sec[0]").with_scale 1.0)
| "E1 FPres" => some (DataRef.new "sim/cockpit2/engine/indicators/fuel_pressure_psi[0]")
| "E1 OilT" => some (DataRef.new "sim/cockpit2/engine/indicators/oil_temperature_deg_C[0]")
| "E1 OilP" => some (DataRef.new "sim/cockpit2/engine/indicators/oil_pressure_psi[0]")
| "E1 RPM" => some (DataRef.new "sim/cockpit2/engine/indicators/engine_speed_rpm[0]")
| "E1 %Pwr" => some (DataRef.new "sim/cockpit2/engine/indicators/N1_percent")
| "E1 CHT1" => some (DataRef.new "sim/cockpit2/engine/indicators/CHT_CYL_deg_F[0]")
| "E1 CHT2" => some (DataRef.new "sim/cockpit2/engine/indicators/CHT_CYL_deg_F[1]")
| "E1 CHT3" => some (DataRef.new "sim/cockpit2/engine/indicators/CHT_CYL_deg_F[2]")
| "E1 CHT4" => some (DataRef.new "sim/cockpit2/engine/indicators/CHT_CYL_deg_F[3]")
| "E1 EGT1" => some (DataRef.new "sim/cockpit2/engine/indicators/EGT_CYL_deg_F[0]")
| "E1 EGT2" => some (DataRef.new "sim/cockpit2/engine/indicators/EGT_CYL_deg_F[1]")
| "E1 EGT3" => some (DataRef.new "sim/cockpit2/engine/indicators/EGT_CYL_deg_F[2]")
| "E1 EGT4" => some (DataRef.new "sim/cockpit2/engine/indicators/EGT_CYL_deg_F[3]")
| _ => none

/-- The `DataFrame::select` by a list of names: fails on a missing name or on
duplicate requested names. -/
def selectTable (df : Table) (names : List String) : Res PErr Table :=
  if names.Nodup then
    match selectCols df names with
    | .panic m => .panic m
    | .err e => .err e
    | .ok cs => .ok ⟨cs⟩
  else .err .duplicate

/-- The `DataFrame::drop_many`: drop every column whose name is listed
(missing names are ignored). -/
def drop_many (df : Table) (names : List String) : Table :=
  ⟨df.cols.filter (fun c => !names.contains c.name)⟩

/-- The `drefs` binding of `data_block` (garmin.rs): the dref lookup of
every post-mandatory column, `none` for entries that do not map. -/
def drefs_of (data : Table) : List (Option DataRef) :=
  ((columnNames data).drop 7).map (fun n => build_dref_map n)

/-- The `mising_idx` binding of `data_block` (garmin.rs): indices (into
the full name list) of the post-mandatory columns whose lookup came back
empty; the source's variable-name typo is kept. -/
def mising_idx_of (data : Table) : List Nat :=
  ((drefs_of data).enum.filter (fun p => p.2.isNone)).map (fun p => p.1 + 7)

/-- The missing-name expression of `data_block` (garmin.rs): the missing
indices read back out of `get_column_names()`. -/
def missing_names_of (data : Table) : List String :=
  (mising_idx_of data).map (fun i => (columnNames data).getD i "")

/-- The `auto_drefs` branch of `data_block` (garmin.rs): fail on unmapped
columns when strict, otherwise drop them and build the block. -/
def data_block_auto (data : Table) (config : FDRConfiguration) :
    Res FlightDataError FlightDataBlock :=
  if config.strict && !(mising_idx_of data).isEmpty then
    .err (.missingDrefs (missing_names_of data))
  else
    FlightDataBlock.new ((drefs_of data).filterMap id)
      (drop_many data (missing_names_of data))

/-- The `GarminLogFile::data_block` (garmin.rs): the Field Mapper.  In minimal
mode select the first 7 columns (a select failure becomes
`InsufficientData`); in mapped mode run the `auto_drefs` branch. -/
def data_block (data : Table) (config : FDRConfiguration) :
    Res FlightDataError FlightDataBlock :=
  if !config.auto_drefs then
    match selectTable data ((columnNames data).take 7) with
    | .ok d => FlightDataBlock.new [] d
    | .err _ => .err .insufficientData
    | .panic m => .panic m
  else data_block_auto data config

/-- The non-mandatory column names of a table that have no entry in the
static dref map (in column order). -/
def unmapped_names (data : Table) : List String :=
  ((columnNames data).drop 7).filter (fun n => (build_dref_map n).isNone)

/-- The `DataFrame::column` as the writer uses it: error when absent. -/
def dfColumn (df : Table) (n : String) : Res PErr Column :=
  match find_column df n with
  | some c => .ok c
  | none => .err (.columnNotFound n)

/-- The `Series::datetime()`: the microsecond values of a Datetime column;
a schema (type-mismatch) error on any other dtype. -/
def colDatetimeVals (c : Column) : Res PErr (List (Option Int)) :=
  if c.dtype = DType.datetime then
    .ok (c.vals.map (fun v =>
      match v with
      | some (.dt us) => some us
      | _ => none))
  else .err .typeMismatch

/-- Zero-padded two-digit rendering of a small nonnegative number. -/
def pad2 (n : Int) : String := if n < 10 then "0" ++ toString n else toString n

/-- Render one chrono format string over a datetime value's second of day;
only the directives the program uses are meaningful. -/
def fmtWalk (sod : Int) : List Char → String
| [] => ""
| '%' :: 'H' :: r => pad2 (sod / 3600) ++ fmtWalk sod r
| '%' :: 'M' :: r => pad2 ((sod % 3600) / 60) ++ fmtWalk sod r
| '%' :: 'S' :: r => pad2 (sod % 60) ++ fmtWalk sod r
| c :: r => String.singleton c ++ fmtWalk sod r

/-- Render one UTC microsecond instant with a format string. -/
def fmtDt (fmt : String) (us : Int) : String :=
  fmtWalk ((us.ediv 1000000).emod 86400) fmt.toList

/-- A chrono time-format string is valid when each `%` introduces a
supported directive.  `strftime` validates its format up front and
renders values infallibly afterwards. -/
def checkFormat : List Char → Bool
| [] => true
| '%' :: 'H' :: r => checkFormat r
| '%' :: 'M' :: r => checkFormat r
| '%' :: 'S' :: r => checkFormat r
| '%' :: _ => false
| _ :: r => checkFormat r

/-- The `DatetimeChunked::strftime`: a compute error on an invalid format,
otherwise the rendered String column (nulls stay null). -/
def strftime (name : String) (vals : List (Option Int)) (fmt : String) :
    Res PErr Column :=
  if checkFormat fmt.toList then
    .ok ⟨name, DType.text, vals.map (Option.map (fun us => Val.str (fmtDt fmt us)))⟩
  else .err .computeError

/-- The `DataFrame::with_column`: replace the same-named column in place, or
append a new one; a shape error when the height does not match. -/
def with_column (df : Table) (c : Column) : Res PErr Table :=
  if c.vals.length = df.height || df.cols.isEmpty then
    if (columnNames df).contains c.name then
      .ok ⟨df.cols.map (fun c0 => if c0.name = c.name then c else c0)⟩
    else .ok ⟨df.cols ++ [c]⟩
  else .err .shapeMismatch

/-- Lines 283-285 of fdr.rs:
`if let Ok(ts) = df.column("timestamp")?.datetime()?.strftime("%H:%M:%S")
\x7b df.with_column(ts)?; \x7d`.
The column lookup and the datetime accessor propagate their errors; a
`strftime` error is silently discarded, leaving the column unrendered. -/
def renderTimestamp (df : Table) : Res PErr Table :=
  match dfColumn df "timestamp" with
  | .panic m => .panic m
  | .err e => .err e
  | .ok c =>
    match colDatetimeVals c with
    | .panic m => .panic m
    | .err e => .err e
    | .ok vals =>
      match strftime c.name vals "%H:%M:%S" with
      | .ok ts => with_column df ts
      | _ => .ok df

/-- Pointwise AND of two boolean masks. -/
def andMask (a b : List Bool) : List Bool := List.zipWith and a b

/-- The `DataFrame::drop_nulls(None)`: keep only the rows with no null in
any column. -/
def drop_nulls (df : Table) : Table :=
  let m := df.cols.foldl (fun acc s => andMask acc (isNotNull s))
    (List.replicate df.height true)
  ⟨df.cols.map (filterCol m)⟩

/-- Render one cell for CSV output (nulls are empty fields). -/
def cellCsv : Option Val → String
| none => ""
| some (.str s) => s
| some (.int n) => toString n
| some (.float q) => toString q
| some (.date d) => toString d
| some (.dt us) => toString us

/-- Serialize a table as headerless comma-separated rows. -/
def csvLines (df : Table) : List String :=
  (List.range df.height).map (fun r =>
    String.intercalate "," (df.cols.map (fun c => cellCsv (c.vals.getD r none))))

/-- The `FDRWriter::write` (fdr.rs) after the data block has been obtained:
emit the preamble, ACFT, TAIL and DREF lines, render the timestamp
column, filter null rows unless allowed, and serialize the table.  Any
error aborts the write. -/
def writeBlock (config : FDRConfiguration) (tail : String)
    (blk : FlightDataBlock) : Res PErr (List String) :=
  let headerLines := ["A", "4", "ACFT," ++ config.aircraft_model, "TAIL," ++ tail]
  let drefLines := blk.drefs.map (fun d => "DREF," ++ d.path ++ "," ++ toString d.scale)
  match renderTimestamp blk.data with
  | .panic m => .panic m
  | .err e => .err e
  | .ok df1 =>
    let df2 := if !config.allow_nulls then drop_nulls df1 else df1
    .ok (headerLines ++ drefLines ++ csvLines df2)

/-- Rust `str::trim_matches(c)`: strip the character `c` at both ends. -/
def trim_matches (c : Char) (l : List Char) : List Char :=
  ((l.dropWhile (fun x => x = c)).reverse.dropWhile (fun x => x = c)).reverse

/-- Rust `str::trim_start_matches(c)`: strip leading occurrences of `c`. -/
def trim_start_matches (c : Char) (l : List Char) : List Char :=
  l.dropWhile (fun x => x = c)

/-- Rust `str::split(c)`: split at every occurrence of `c`, keeping
empty pieces; always returns at least one piece. -/
def splitChar (c : Char) : List Char → List (List Char)
| [] => [[]]
| x :: xs =>
  match splitChar c xs with
  | [] => [[]]
  | s :: rest => if x = c then [] :: s :: rest else (x :: s) :: rest

/-- The body of the metadata loop of `GarminEISLogHeader::from_csv`
(garmin.rs lines 258-265): split one `key=value` entry at `=`; when both
parts exist, store the whitespace-trimmed key with the value trimmed of
surrounding quote characters. -/
def parse_entry (entry : List Char) : Option (List Char × List Char) :=
  match splitChar '=' entry with
  | k :: v :: _ => some (trimWs k, trim_matches '"' v)
  | _ => none

/-- The `GarminEISColumn` (garmin.rs): a raw column name and its unit. -/
structure GarminEISColumn where
  name : List Char
  unit : List Char
deriving DecidableEq

/-- The `GarminEISLogHeader` (garmin.rs); the HashMap is modelled as the
insertion sequence of key/value pairs. -/
structure GarminEISLogHeader where
  metadata : List (List Char × List Char)
  columns : List GarminEISColumn
deriving DecidableEq

/-- Outcome of the header parse: an `expect` panic, a propagated
I/O (read) error, or the parsed header. -/
inductive HRes (α : Type)
| panic (msg : String)
| ioErr
| ok (a : α)
deriving DecidableEq

/-- Whether the header parse panicked. -/
def HRes.isPanic {α : Type} : HRes α → Bool
| .panic _ => true
| _ => false

/-- The `GarminEISLogHeader::from_csv` (garmin.rs) on the file's line
sequence (each line either read successfully or a read error):
`lines.next().expect(..)` panics when a line is absent, and `?`
propagates a read error; then line 1 yields the metadata entries and
lines 2 and 3, zipped, yield the unit/name column list. -/
def from_csv (lines : List (Except Unit (List Char))) : HRes GarminEISLogHeader :=
  match lines with
  | [] => .panic "No lines in file"
  | l1 :: rest1 =>
    match l1 with
    | .error _ => .ioErr
    | .ok metadata_line =>
      match rest1 with
      | [] => .panic "No units line in file"
      | l2 :: rest2 =>
        match l2 with
        | .error _ => .ioErr
        | .ok units_line =>
          match rest2 with
          | [] => .panic "No names line in file"
          | l3 :: _ =>
            match l3 with
            | .error _ => .ioErr
            | .ok names_line =>
              let units := splitChar ',' (trim_start_matches '#' units_line)
              let names := splitChar ',' names_line
              let metadata :=
                (splitChar ',' (trim_start_matches '#' metadata_line)).filterMap parse_entry
              let columns := (units.zip names).map (fun p =>
                ({ name := p.2, unit := trimWs p.1 } : GarminEISColumn))
              .ok { metadata := metadata, columns := columns }

/-- The unit → dtype match of `GarminEISLogHeader::build_schema`
(garmin.rs lines 277-324); every unit not listed falls to String. -/
def unit_dtype : String → DType
| "yyy-mm-dd" => .date
| "bool" => .int
| "enum" => .text
| "MHz" => .float
| "degrees" => .float
| "ft" => .float
| "nm" => .float
| "fsd" => .float
| "mt" => .float
| "ft wgs" => .float
| "ft Baro" => .float
| "ft msl" => .float
| "kt" => .float
| "fpm" => .float
| "deg" => .float
| "ft/min" => .float
| "deg F/min" => .float
| "kts" => .float
| "lbs" => .float
| "gals" => .float
| "volts" => .float
| "amps" => .float
| "gph" => .float
| "psi" => .float
| "degF" => .float
| "deg F" => .float
| "deg C" => .float
| "%" => .float
| "rpm" => .float
| "inch" => .float
| "Hg" => .float
| "G" => .float
| "#" => .int
| "s" => .float
| "crc16" => .text
| _ => .text

/-- The unit strings that appear in the `build_schema` lookup table. -/
def knownUnits : List String :=
  ["yyy-mm-dd", "bool", "enum", "MHz", "degrees", "ft", "nm", "fsd", "mt",
   "ft wgs", "ft Baro", "ft msl", "kt", "fpm", "deg", "ft/min", "deg F/min",
   "kts", "lbs", "gals", "volts", "amps", "gph", "psi", "degF", "deg F",
   "deg C", "%", "rpm", "inch", "Hg", "G", "#", "s", "crc16"]

/-- The `GarminEISLogHeader::build_schema`: one field per column, named by the
trimmed column name and typed by the unit lookup. -/
def build_schema (h : GarminEISLogHeader) : List (List Char × DType) :=
  h.columns.map (fun c => (trimWs c.name, unit_dtype (String.mk c.unit)))

/-! Concrete tables and configurations used to instantiate the theorems. -/

/-- A one-row Float64 column with the given name. -/
def mkF (n : String) : Column := ⟨n, DType.float, [some (Val.float 1)]⟩

/-- A one-row Datetime column named `timestamp` (12:00:00 UTC). -/
def tsC : Column := ⟨"timestamp", DType.datetime, [some (Val.dt 43200000000)]⟩

/-- A cleaned table whose mandatory columns arrive out of order, plus one extra. -/
def c1df : Table :=
  ⟨[mkF "Longitude", tsC, mkF "Latitude", mkF "AltB", mkF "HDG", mkF "Pitch",
    mkF "Roll", mkF "IAS"]⟩

/-- The `c1df` after cleaning: mandatory columns first, the extra behind them. -/
def c1out : Table :=
  ⟨[tsC, mkF "Longitude", mkF "Latitude", mkF "AltB", mkF "HDG", mkF "Pitch",
    mkF "Roll", mkF "IAS"]⟩

/-- An output block whose table has no `timestamp` column. -/
def c2blk : FlightDataBlock := ⟨[], ⟨[mkF "Longitude"]⟩⟩

/-- A default-like configuration (minimal mode, not strict, no nulls). -/
def c2cfg : FDRConfiguration := ⟨"", "N12345", none, false, false, false⟩

/-- A table with only 5 columns (narrower than the 7 mandatory ones). -/
def c3df : Table := ⟨[tsC, mkF "Longitude", mkF "Latitude", mkF "AltB", mkF "HDG"]⟩

/-- Minimal-mode configuration for the narrow-table evaluation. -/
def c3cfg : FDRConfiguration := ⟨"", "N12345", none, false, false, false⟩

/-- A 9-column table: the 7 mandatory columns, a mapped extra (`IAS`)
and an unmapped extra (`Zzz`). -/
def c4t : Table :=
  ⟨[tsC, mkF "Longitude", mkF "Latitude", mkF "AltB", mkF "HDG", mkF "Pitch",
    mkF "Roll", mkF "IAS", mkF "Zzz"]⟩

/-- Strict mapped-mode configuration. -/
def c4cfg : FDRConfiguration := ⟨"", "", none, true, true, false⟩

/-- A 5-column table used against strict mapped mode. -/
def c4ct : Table := ⟨[tsC, mkF "Longitude", mkF "Latitude", mkF "AltB", mkF "HDG"]⟩

/-- A table with exactly the 7 mandatory columns. -/
def c5tA : Table :=
  ⟨[tsC, mkF "Longitude", mkF "Latitude", mkF "AltB", mkF "HDG", mkF "Pitch",
    mkF "Roll"]⟩

/-- The block built from `c5tA` with no drefs. -/
def c5blkA : FlightDataBlock := ⟨[], c5tA⟩

/-- The 7 mandatory columns plus the mapped extra column `IAS`. -/
def c5tB : Table :=
  ⟨[tsC, mkF "Longitude", mkF "Latitude", mkF "AltB", mkF "HDG", mkF "Pitch",
    mkF "Roll", mkF "IAS"]⟩

/-- Non-strict mapped-mode configuration. -/
def c5cfg : FDRConfiguration := ⟨"", "", none, false, true, false⟩

/-- The block mapped mode builds from `c5tB`. -/
def c5blkB : FlightDataBlock :=
  ⟨[DataRef.new "sim/cockpit2/gauges/indicators/airspeed_kts_pilot"], c5tB⟩

/-- A two-column table with one all-null row (row 3). -/
def c8df : Table :=
  ⟨[⟨"A", DType.int, [some (Val.int 1), none, none]⟩,
    ⟨"B", DType.text, [none, some (Val.str "x"), none]⟩]⟩

/-- The `c8df` with its all-null row removed. -/
def c8out : Table :=
  ⟨[⟨"A", DType.int, [some (Val.int 1), none]⟩,
    ⟨"B", DType.text, [none, some (Val.str "x")]⟩]⟩

/-! Helper lemmas. -/

/-- Folding the mask accumulator from a `some` start never returns to `none`. -/
theorem foldl_some (cs : List Column) : ∀ m : List Bool,
    cs.foldl (fun acc s =>
      match acc with
      | none => some (isNotNull s)
      | some m0 => some (orMask m0 (isNotNull s))) (some m) =
    some (cs.foldl (fun m0 s => orMask m0 (isNotNull s)) m) := by
  induction cs with
  | nil => intro m; rfl
  | cons c cs ih => intro m; simp only [List.foldl_cons]; exact ih _

/-- The combined null mask of a nonempty column list. -/
theorem maskOf_cons (c : Column) (cs : List Column) :
    maskOf (c :: cs) =
      some (cs.foldl (fun m s => orMask m (isNotNull s)) (isNotNull c)) := by
  simp only [maskOf, List.foldl_cons]
  exact foldl_some cs _

/-- Selecting a list of columns never panics. -/
theorem selectCols_no_panic (df : Table) (ns : List String) :
    (selectCols df ns).isPanic = false := by
  induction ns with
  | nil => rfl
  | cons n ns ih =>
    simp only [selectCols]
    cases hf : find_column df n with
    | none => rfl
    | some c =>
      cases hs : selectCols df ns with
      | panic m => rw [hs] at ih; simp [Res.isPanic] at ih
      | err e => rfl
      | ok cs => rfl

/-- The reordering select never panics. -/
theorem reorder_no_panic (df : Table) : (reorder_columns df).isPanic = false := by
  simp only [reorder_columns]
  split
  · cases hs : selectCols df requiredCols with
    | panic m =>
      have h := selectCols_no_panic df requiredCols
      rw [hs] at h; simp [Res.isPanic] at h
    | err e => rfl
    | ok cs => rfl
  · rfl

/-! Claim theorems. -/

/-- Claim C10 (confirmed): `remove_empty_rows`, and therefore
`clean_dataframe`, panics (terminates abnormally via the `.unwrap()` on
the folded mask) exactly when the table has zero columns; it neither
returns the empty table nor an error there. -/
theorem c10_zero_columns_panic (df : Table) :
    ((remove_empty_rows df).isPanic = df.cols.isEmpty) ∧
    ((clean_dataframe df).isPanic = df.cols.isEmpty) := by
  constructor
  · cases hc : df.cols with
    | nil => simp [remove_empty_rows, hc, maskOf, Res.isPanic]
    | cons c cs => simp [remove_empty_rows, hc, maskOf_cons, Res.isPanic]
  · cases hc : df.cols with
    | nil =>
      simp [clean_dataframe, clean_strings, strip_column_names, hc,
        remove_empty_rows, maskOf, Res.isPanic]
    | cons c cs =>
      simp only [clean_dataframe, clean_strings, strip_column_names, hc,
        List.map_cons, remove_empty_rows, maskOf_cons]
      simp [reorder_no_panic]

/-- Claim C2 (confirmed): when the timestamp column of an output block
cannot be rendered to text (the column is absent or is not a Datetime
column — the only failures realizable with the fixed, valid format
`%H:%M:%S`), the writer aborts with that error and does not serialize
the table. -/
theorem c2_render_failure_aborts (config : FDRConfiguration) (tail : String)
    (blk : FlightDataBlock) (e : PErr)
    (h : renderTimestamp blk.data = .err e) :
    writeBlock config tail blk = .err e := by
  simp only [writeBlock, h]

/-- Witness for C2: a block without a `timestamp` column makes the
writer abort with the column-not-found error. -/
theorem c2_render_failure_aborts_witness :
    renderTimestamp c2blk.data = Res.err (PErr.columnNotFound "timestamp") ∧
    writeBlock c2cfg "N12345" c2blk = Res.err (PErr.columnNotFound "timestamp") :=
  ⟨by decide, c2_render_failure_aborts c2cfg "N12345" c2blk _ (by decide)⟩

/-- Claim C3 (code_bug): on a 5-column table in minimal mode the select of
the table's own first names succeeds, and `FlightDataBlock::new` computes
`data.width() - 7` with `usize` arithmetic, which wraps (release) or panics
(debug); the result is `MissingDrefs([])`, never the claimed
`InsufficientData`. -/
theorem c3_narrow_table_eval :
    data_block c3df c3cfg = Res.err (FlightDataError.missingDrefs []) ∧
    FlightDataError.missingDrefs [] ≠ FlightDataError.insufficientData := by
  exact ⟨by decide, by decide⟩

/-- Claim C6 (corrected), counterexample: a one-line input makes the header
parser terminate abnormally (the `expect` panic), not return a read error. -/
theorem c6_counterexample :
    from_csv [Except.ok ("#airframe_name=\"X\"".toList)] =
      HRes.panic "No units line in file" ∧
    HRes.panic "No units line in file" ≠ (HRes.ioErr : HRes GarminEISLogHeader) :=
  ⟨rfl, by decide⟩

/-- Claim C6 (corrected, amended): on every input with fewer than three
lines in which the present lines were read successfully, the header
parser panics via `expect` instead of returning an error (a read error
on a present line is still propagated as an error). -/
theorem c6_short_input_panics (lines : List (Except Unit (List Char)))
    (hlen : lines.length < 3) (hok : ∀ x ∈ lines, x.isOk = true) :
    (from_csv lines).isPanic = true := by
  cases lines with
  | nil => rfl
  | cons x t =>
    have hx := hok x (by simp)
    cases t with
    | nil =>
      cases x with
      | ok s => rfl
      | error e => simp [Except.isOk, Except.toBool] at hx
    | cons y t2 =>
      have hy := hok y (by simp)
      cases t2 with
      | nil =>
        cases x with
        | error e => simp [Except.isOk, Except.toBool] at hx
        | ok s =>
          cases y with
          | error e => simp [Except.isOk, Except.toBool] at hy
          | ok s2 => rfl
      | cons z t3 => simp at hlen; omega

/-- Witness for C6: a two-line fully-readable input panics. -/
theorem c6_short_input_panics_witness :
    (from_csv [Except.ok ("#meta".toList), Except.ok ("#units".toList)]).isPanic = true :=
  c6_short_input_panics _ (by decide) (by decide)

/-- Claim C7 (confirmed): the unit → type lookup is total, always returns
one of the five supported types, and maps every unit string outside the
fixed table to Text. -/
theorem c7_schema_totality (u : String) :
    unit_dtype u ∈ [DType.text, DType.int, DType.float, DType.date, DType.datetime] ∧
    (u ∉ knownUnits → unit_dtype u = DType.text) := by
  constructor
  · have h : ∀ d : DType,
        d ∈ [DType.text, DType.int, DType.float, DType.date, DType.datetime] := by
      intro d; cases d <;> simp
    exact h _
  · intro hu
    unfold unit_dtype
    split
    all_goals first | rfl | simp_all [knownUnits]

/-- Witness for C7: an unknown unit string maps to Text. -/
theorem c7_schema_totality_witness :
    unit_dtype "furlongs" ∈ [DType.text, DType.int, DType.float, DType.date, DType.datetime] ∧
    unit_dtype "furlongs" = DType.text :=
  ⟨(c7_schema_totality "furlongs").1, (c7_schema_totality "furlongs").2 (by decide)⟩

/-- Masking the empty list gives the empty list. -/
theorem applyMask_nil {α : Type} (m : List Bool) :
    applyMask m ([] : List α) = [] := by
  cases m <;> simp [applyMask]

/-- Masking commutes with mapping a function over the values. -/
theorem applyMask_map {α β : Type} (f : α → β) :
    ∀ (m : List Bool) (vs : List α),
    applyMask m (vs.map f) = (applyMask m vs).map f := by
  intro m
  induction m with
  | nil => intro vs; simp [applyMask]
  | cons b m ih =>
    intro vs
    cases vs with
    | nil => simp [applyMask_nil]
    | cons v vs => cases b <;> simp [applyMask, ih]

/-- Masking two masks pointwise-ORed equals ORing the masked masks. -/
theorem orMask_applyMask : ∀ (m a b : List Bool),
    orMask (applyMask m a) (applyMask m b) = applyMask m (orMask a b) := by
  intro m
  induction m with
  | nil => intro a b; simp [applyMask, orMask]
  | cons x m ih =>
    intro a b
    cases a with
    | nil => cases x <;> simp [applyMask_nil, applyMask, orMask]
    | cons av a =>
      cases b with
      | nil => cases x <;> simp [applyMask_nil, applyMask, orMask]
      | cons bv b =>
        cases x with
        | true => simp [applyMask, orMask]; exact ih a b
        | false => simp [applyMask, orMask]; exact ih a b

/-- Re-masking a masked list with the self-masked mask changes nothing. -/
theorem applyMask_self_apply {α : Type} :
    ∀ (m : List Bool) (vs : List α),
    applyMask (applyMask m m) (applyMask m vs) = applyMask m vs := by
  intro m
  induction m with
  | nil => intro vs; simp [applyMask]
  | cons x m ih =>
    intro vs
    cases x with
    | true =>
      cases vs with
      | nil => simp [applyMask_nil, applyMask]
      | cons v vs => simp [applyMask, ih]
    | false =>
      cases vs with
      | nil => simp [applyMask_nil, applyMask]
      | cons v vs => simp [applyMask, ih]

/-- The not-null mask of a filtered column is the filtered mask. -/
theorem isNotNull_filterCol (m : List Bool) (c : Column) :
    isNotNull (filterCol m c) = applyMask m (isNotNull c) :=
  (applyMask_map _ m c.vals).symm

/-- The mask fold over masked columns is the masked mask fold. -/
theorem foldl_orMask_applyMask (m : List Bool) (cs : List Column) :
    ∀ x : List Bool,
    cs.foldl (fun acc s => orMask acc (applyMask m (isNotNull s))) (applyMask m x) =
    applyMask m (cs.foldl (fun acc s => orMask acc (isNotNull s)) x) := by
  induction cs with
  | nil => intro x; rfl
  | cons c cs ih =>
    intro x
    simp only [List.foldl_cons]
    rw [orMask_applyMask]
    exact ih _

/-- Filtering an already-filtered column by the self-masked mask is a no-op. -/
theorem filterCol_self (m : List Bool) (c : Column) :
    filterCol (applyMask m m) (filterCol m c) = filterCol m c := by
  simp [filterCol, applyMask_self_apply]

/-- Claim C8 (confirmed): `remove_empty_rows` is idempotent — its output
(on any table with at least one column, the only tables on which it
returns at all) is a fixed point. -/
theorem c8_remove_empty_rows_idempotent (df e : Table)
    (h : remove_empty_rows df = .ok e) :
    remove_empty_rows e = .ok e := by
  unfold remove_empty_rows at h
  cases hc : df.cols with
  | nil => rw [hc] at h; simp [maskOf] at h
  | cons c cs =>
    rw [hc, maskOf_cons] at h
    injection h with h'
    rw [← h']
    unfold remove_empty_rows
    simp only [List.map_cons, maskOf_cons, List.foldl_map, isNotNull_filterCol,
      foldl_orMask_applyMask]
    simp only [List.map_map]
    have hmap : ∀ l : List Column,
        l.map (fun x => filterCol
          (applyMask (cs.foldl (fun m s => orMask m (isNotNull s)) (isNotNull c))
            (cs.foldl (fun m s => orMask m (isNotNull s)) (isNotNull c)))
          (filterCol (cs.foldl (fun m s => orMask m (isNotNull s)) (isNotNull c)) x)) =
        l.map (filterCol (cs.foldl (fun m s => orMask m (isNotNull s)) (isNotNull c))) := by
      intro l
      induction l with
      | nil => rfl
      | cons y l ihl => simp [filterCol_self, ihl]
    simp [Function.comp, filterCol_self, hmap]

/-- Witness for C8: one concrete pass removes the all-null row; the
second pass is the identity on the result. -/
theorem c8_remove_empty_rows_idempotent_witness :
    remove_empty_rows c8out = Res.ok c8out :=
  c8_remove_empty_rows_idempotent c8df c8out (by decide)

/-- Stripping column names trims every name. -/
theorem columnNames_strip (df : Table) :
    columnNames (strip_column_names df) = (columnNames df).map rust_trim := by
  simp [columnNames, strip_column_names, List.map_map, clean_column_name,
    Function.comp]

/-- Trimming string values does not change the column names. -/
theorem columnNames_clean_strings (df : Table) :
    columnNames (clean_strings df) = columnNames df := by
  have hp : ∀ c : Column,
      (if c.dtype = DType.text
        then { c with vals := c.vals.map (Option.map trimVal) } else c).name = c.name := by
    intro c; split <;> rfl
  simp [columnNames, clean_strings, List.map_map, Function.comp, hp]

/-- Removing empty rows does not change the column names. -/
theorem columnNames_remove_empty_rows (df e : Table)
    (h : remove_empty_rows df = .ok e) : columnNames e = columnNames df := by
  unfold remove_empty_rows at h
  cases hmo : maskOf df.cols with
  | none => rw [hmo] at h; simp at h
  | some m =>
    rw [hmo] at h
    injection h with h'
    rw [← h']
    simp [columnNames, filterCol, List.map_map, Function.comp]

/-- A successful select returns columns bearing exactly the requested
names, in order. -/
theorem selectCols_names (df : Table) :
    ∀ (ns : List String) (cs : List Column),
    selectCols df ns = .ok cs → cs.map (fun c => c.name) = ns := by
  intro ns
  induction ns with
  | nil => intro cs h; injection h with h'; rw [← h']; rfl
  | cons n ns ih =>
    intro cs h
    simp only [selectCols] at h
    cases hf : find_column df n with
    | none => rw [hf] at h; simp at h
    | some c =>
      rw [hf] at h
      cases hs : selectCols df ns with
      | panic m => rw [hs] at h; simp at h
      | err e => rw [hs] at h; simp at h
      | ok cs0 =>
        rw [hs] at h
        injection h with h'
        rw [← h']
        have hcn : c.name = n := by
          have := List.find?_some hf
          exact of_decide_eq_true this
        simp [hcn, ih cs0 hs]

/-- Claim C1 (corrected, amended): every table produced by
`clean_dataframe` starts with exactly the 7 mandatory columns under the
code's names `timestamp, Longitude, Latitude, AltB, HDG, Pitch, Roll`,
in that order, regardless of where they stood in the input, and the
remaining columns follow in their original relative order (with trimmed
names). -/
theorem c1_mandatory_first (df df' : Table)
    (h : clean_dataframe df = .ok df') :
    columnNames df' =
      requiredCols ++
        (((columnNames df).map rust_trim).filter
          (fun n => !requiredCols.contains n)) := by
  unfold clean_dataframe at h
  cases hr : remove_empty_rows (clean_strings (strip_column_names df)) with
  | panic m => rw [hr] at h; exact Res.noConfusion h
  | err e => rw [hr] at h; exact Res.noConfusion h
  | ok df3 =>
    rw [hr] at h
    have h2 : reorder_columns df3 = Res.ok df' := h
    have hnames3 : columnNames df3 = (columnNames df).map rust_trim := by
      rw [columnNames_remove_empty_rows _ _ hr, columnNames_clean_strings,
        columnNames_strip]
    unfold reorder_columns at h2
    by_cases hnd : (columnNames df3).Nodup
    · rw [if_pos hnd] at h2
      cases hs : selectCols df3 requiredCols with
      | panic m => rw [hs] at h2; exact Res.noConfusion h2
      | err e => rw [hs] at h2; exact Res.noConfusion h2
      | ok req =>
        rw [hs] at h2
        injection h2 with h'
        rw [← h']
        show (req ++ df3.cols.filter (fun c => !requiredCols.contains c.name)).map
          (fun c => c.name) = _
        rw [List.map_append, selectCols_names df3 requiredCols req hs]
        congr 1
        rw [← hnames3]
        simp only [columnNames, List.filter_map]
        rfl
    · rw [if_neg hnd] at h2; exact Res.noConfusion h2

/-- Witness for C1: the scrambled concrete table cleans to the
mandatory-first order with the extra column after. -/
theorem c1_mandatory_first_witness :
    columnNames c1out =
      requiredCols ++
        (((columnNames c1df).map rust_trim).filter
          (fun n => !requiredCols.contains n)) :=
  c1_mandatory_first c1df c1out (by decide)

/-- Claim C1, counterexample to the claim as stated: cleaning succeeds on
the concrete table, but the 7 leading names are the Garmin source names,
not the names `timestamp, longitude, latitude, altitude, heading, pitch,
roll` the claim lists. -/
theorem c1_counterexample :
    clean_dataframe c1df = Res.ok c1out ∧
    (columnNames c1out).take 7 ≠
      ["timestamp", "longitude", "latitude", "altitude", "heading", "pitch", "roll"] :=
  ⟨by decide, by decide⟩

/-- The `getD` at the length of the left part of an append hits the head of
the right part. -/
theorem getD_append_len {α : Type} (d : α) :
    ∀ (pre : List α) (a : α) (t : List α),
    (pre ++ a :: t).getD pre.length d = a := by
  intro pre
  induction pre with
  | nil => intro a t; rfl
  | cons p pre ih => intro a t; simpa [List.getD] using ih a t

/-- Enumerating, filtering on a failed lookup, and reading the indices
back out of the full list recovers exactly the unmapped elements. -/
theorem enum_missing_aux {α β : Type} (f : α → Option β) (d : α) :
    ∀ (l : List α) (n k : Nat) (pre : List α), pre.length = n + k →
    (((l.map f).enumFrom n).filter (fun p => p.2.isNone)).map
      (fun p => (pre ++ l).getD (p.1 + k) d) =
    l.filter (fun a => (f a).isNone) := by
  intro l
  induction l with
  | nil => intro n k pre hp; rfl
  | cons a l ih =>
    intro n k pre hp
    have hnext := ih (n + 1) k (pre ++ [a]) (by simp [hp]; omega)
    simp only [List.append_assoc, List.singleton_append] at hnext
    simp only [List.map_cons, List.enumFrom_cons]
    cases hfa : (f a).isNone with
    | false =>
      simp only [List.filter_cons, hfa, Bool.false_eq_true, if_false]
      exact hnext
    | true =>
      simp only [List.filter_cons, hfa, if_true]
      simp only [List.map_cons]
      rw [hnext]
      congr 1
      rw [← hp]
      exact getD_append_len d pre a l

/-- The missing-name computation of `data_block` returns exactly the
unmapped non-mandatory column names, in column order. -/
theorem missing_names_of_eq (data : Table) (h7 : 7 ≤ data.width) :
    missing_names_of data = unmapped_names data := by
  have hlen : (columnNames data).length = data.width := by
    simp [columnNames, Table.width]
  have hpre : ((columnNames data).take 7).length = 0 + 7 := by
    rw [List.length_take]; omega
  have h := enum_missing_aux build_dref_map "" ((columnNames data).drop 7) 0 7
    ((columnNames data).take 7) hpre
  rw [List.take_append_drop 7 (columnNames data)] at h
  unfold missing_names_of mising_idx_of drefs_of unmapped_names
  rw [List.map_map]
  exact h

/-- The numeral value of the `usize` modulus. -/
theorem usize_val : USIZE = 18446744073709551616 := by norm_num [USIZE]

/-- Wrapping subtraction agrees with truncated subtraction in range. -/
theorem wrapSub_of_le {w : Nat} (h7 : 7 ≤ w) (hw : w < USIZE) :
    wrapSub w 7 = w - 7 := by
  have hU := usize_val
  unfold wrapSub
  rw [show w + (USIZE - 7) = (w - 7) + USIZE by omega, Nat.add_mod_right]
  exact Nat.mod_eq_of_lt (by omega)

/-- Wrapping subtraction underflows below 7. -/
theorem wrapSub_of_lt {w : Nat} (h : w < 7) :
    wrapSub w 7 = w + (USIZE - 7) := by
  have hU := usize_val
  unfold wrapSub
  exact Nat.mod_eq_of_lt (by omega)

/-- The `filter_map(|x| x)` keeps everything when every entry is present. -/
theorem filterMap_id_all_some {β : Type} :
    ∀ l : List (Option β), (∀ x ∈ l, x.isSome = true) →
    (l.filterMap id).length = l.length := by
  intro l
  induction l with
  | nil => intro _; rfl
  | cons x l ih =>
    intro hall
    have hx := hall x (by simp)
    cases x with
    | none => simp at hx
    | some b =>
      simp only [List.filterMap_cons, id, List.length_cons]
      rw [ih (fun y hy => hall y (by simp [hy]))]

/-- Dropping no columns keeps the table unchanged. -/
theorem drop_many_nil (data : Table) : drop_many data [] = data := by
  cases data with
  | mk cols =>
    show Table.mk (cols.filter fun c => !List.contains [] c.name) = Table.mk cols
    congr 1
    apply List.filter_eq_self.mpr
    intro a _
    rfl

/-- Mapped mode reduces `data_block` to its `auto_drefs` branch. -/
theorem data_block_of_auto (data : Table) (config : FDRConfiguration)
    (ha : config.auto_drefs = true) :
    data_block data config = data_block_auto data config := by
  unfold data_block
  rw [ha]
  exact if_neg (by decide)

/-- Claim C4 (corrected, amended): for every table with at least 7 columns
(and realistically bounded width) and every strict mapped-mode
configuration, the Field Mapper fails with `MissingDrefs` carrying the
names of all unmapped non-mandatory columns whenever one exists, and
succeeds otherwise. -/
theorem c4_strict_missing_complete (data : Table) (config : FDRConfiguration)
    (h7 : 7 ≤ data.width) (hw : data.width < USIZE)
    (hs : config.strict = true) (ha : config.auto_drefs = true) :
    (unmapped_names data ≠ [] →
      data_block data config = .err (.missingDrefs (unmapped_names data))) ∧
    (unmapped_names data = [] →
      ∃ blk, data_block data config = .ok blk) := by
  have hlen : (columnNames data).length = data.width := by
    simp [columnNames, Table.width]
  have hmn := missing_names_of_eq data h7
  have hred := data_block_of_auto data config ha
  constructor
  · intro hne
    have hMne : (mising_idx_of data).isEmpty = false := by
      cases hM : mising_idx_of data with
      | nil =>
        exfalso
        apply hne
        rw [← hmn]
        unfold missing_names_of
        rw [hM]
        rfl
      | cons x xs => rfl
    rw [hred]
    unfold data_block_auto
    rw [hs, hMne]
    rw [if_pos (by decide)]
    rw [hmn]
  · intro heq
    have hmn0 : missing_names_of data = [] := by rw [hmn]; exact heq
    have hMnil : (mising_idx_of data).isEmpty = true := by
      unfold missing_names_of at hmn0
      rw [List.map_eq_nil_iff] at hmn0
      rw [hmn0]
      rfl
    have hall : ∀ x ∈ drefs_of data, x.isSome = true := by
      intro x hx
      unfold drefs_of at hx
      rw [List.mem_map] at hx
      obtain ⟨a, ha2, hfx⟩ := hx
      have hnone : (build_dref_map a).isNone = false := by
        by_contra hc
        have hc2 : (build_dref_map a).isNone = true := by
          cases hb : (build_dref_map a).isNone
          · exact absurd hb hc
          · rfl
        have : a ∈ unmapped_names data := by
          unfold unmapped_names
          rw [List.mem_filter]
          exact ⟨ha2, hc2⟩
        rw [heq] at this
        exact List.not_mem_nil a this
      rw [← hfx]
      cases hb : build_dref_map a
      · rw [hb] at hnone; simp at hnone
      · rfl
    have hlen2 : ((drefs_of data).filterMap id).length = data.width - 7 := by
      rw [filterMap_id_all_some (drefs_of data) hall]
      unfold drefs_of
      rw [List.length_map, List.length_drop, hlen]
    refine ⟨⟨(drefs_of data).filterMap id, data⟩, ?_⟩
    rw [hred]
    unfold data_block_auto
    rw [hMnil]
    simp only [Bool.not_true, Bool.and_false, Bool.false_eq_true, if_false]
    rw [hmn0, drop_many_nil]
    unfold FlightDataBlock.new
    rw [if_neg (by rw [wrapSub_of_le h7 hw, hlen2]; simp)]

/-- Witness for C4: with extras `IAS` (mapped) and `Zzz` (unmapped), the
strict mapper reports exactly `Zzz`. -/
theorem c4_strict_missing_complete_witness :
    data_block c4t c4cfg =
      Res.err (FlightDataError.missingDrefs (unmapped_names c4t)) :=
  (c4_strict_missing_complete c4t c4cfg (by decide) (by decide) rfl rfl).1 (by decide)

/-- Claim C4, counterexample to the claim as stated: on a 5-column table
no non-mandatory column lacks a mapping (there are none), yet strict
mapped mode fails with `MissingDrefs []` (the `usize` underflow in
`FlightDataBlock::new`) instead of succeeding. -/
theorem c4_counterexample :
    unmapped_names c4ct = [] ∧
    data_block c4ct c4cfg = Res.err (FlightDataError.missingDrefs []) :=
  ⟨by decide, by decide⟩

/-- Filtering on a present lookup aligns pointwise with `filterMap`. -/
theorem forall2_filter_filterMap {γ β : Type} (g : γ → Option β) :
    ∀ l : List γ,
    List.Forall₂ (fun c r => g c = some r)
      (l.filter (fun c => (g c).isSome)) (l.filterMap g) := by
  intro l
  induction l with
  | nil => exact List.Forall₂.nil
  | cons c l ih =>
    cases hv : g c with
    | none =>
      rw [List.filter_cons, List.filterMap_cons]
      simp only [hv, Option.isSome_none, Bool.false_eq_true, if_false]
      exact ih
    | some b =>
      rw [List.filter_cons, List.filterMap_cons]
      simp only [hv, Option.isSome_some, if_true]
      exact List.Forall₂.cons hv ih

/-- A successful mapped-mode block implies at least 7 source columns. -/
theorem data_block_auto_ok_width (data : Table) (config : FDRConfiguration)
    (blk : FlightDataBlock) (h : data_block_auto data config = .ok blk) :
    7 ≤ data.width := by
  by_contra hlt
  push_neg at hlt
  have hdrop : (columnNames data).drop 7 = [] := by
    apply List.drop_eq_nil_of_le
    have : (columnNames data).length = data.width := by
      simp [columnNames, Table.width]
    omega
  have hdr : drefs_of data = [] := by unfold drefs_of; rw [hdrop]; rfl
  have hmi : mising_idx_of data = [] := by unfold mising_idx_of; rw [hdr]; rfl
  have hmn : missing_names_of data = [] := by unfold missing_names_of; rw [hmi]; rfl
  unfold data_block_auto at h
  rw [hmi, hmn, hdr] at h
  rw [if_neg (by simp)] at h
  rw [drop_many_nil] at h
  unfold FlightDataBlock.new at h
  rw [if_pos ?pos] at h
  case pos =>
    rw [wrapSub_of_lt hlt]
    have hU := usize_val
    simp only [List.filterMap_nil, List.length_nil]
    omega
  exact Res.noConfusion h

/-- Claim C5 (confirmed): every successfully constructed block has
exactly `width - 7` mappings (given the physical bounds on widths and
vector lengths), and in mapped mode the mappings align positionally with
the retained non-mandatory columns: column `i` past the mandatory 7 looks
up in the static map to exactly mapping `i`. -/
theorem c5_mapping_alignment :
    (∀ (drefs : List DataRef) (data : Table) (blk : FlightDataBlock),
      data.width < USIZE → drefs.length < 2 ^ 63 →
      FlightDataBlock.new drefs data = .ok blk →
      7 ≤ blk.data.width ∧ blk.drefs.length = blk.data.width - 7) ∧
    (∀ (data : Table) (config : FDRConfiguration) (blk : FlightDataBlock),
      config.auto_drefs = true → (columnNames data).Nodup →
      data_block data config = .ok blk →
      List.Forall₂ (fun c r => build_dref_map c.name = some r)
        (blk.data.cols.drop 7) blk.drefs) := by
  constructor
  · intro drefs data blk hw hd hnew
    unfold FlightDataBlock.new at hnew
    by_cases hc : wrapSub data.width 7 ≠ drefs.length
    · rw [if_pos hc] at hnew; exact absurd hnew (by simp)
    · rw [if_neg hc] at hnew
      push_neg at hc
      injection hnew with h'
      rw [← h']
      show 7 ≤ data.width ∧ drefs.length = data.width - 7
      by_cases h7 : 7 ≤ data.width
      · exact ⟨h7, by rw [← hc, wrapSub_of_le h7 hw]⟩
      · exfalso
        push_neg at h7
        rw [wrapSub_of_lt h7] at hc
        have hU := usize_val
        have h63 : (2 : Nat) ^ 63 = 9223372036854775808 := by norm_num
        omega
  · intro data config blk ha hnd hok
    rw [data_block_of_auto data config ha] at hok
    have h7 := data_block_auto_ok_width data config blk hok
    have hwid : (columnNames data).length = data.width := by
      simp [columnNames, Table.width]
    have hmn := missing_names_of_eq data h7
    unfold data_block_auto at hok
    by_cases hcond : (config.strict && !(mising_idx_of data).isEmpty) = true
    · rw [if_pos hcond] at hok; exact absurd hok (by simp)
    · rw [if_neg hcond] at hok
      unfold FlightDataBlock.new at hok
      by_cases hc : wrapSub (drop_many data (missing_names_of data)).width 7 ≠
          ((drefs_of data).filterMap id).length
      · rw [if_pos hc] at hok; exact absurd hok (by simp)
      · rw [if_neg hc] at hok
        injection hok with h'
        rw [← h']
        show List.Forall₂ _ ((drop_many data (missing_names_of data)).cols.drop 7)
          ((drefs_of data).filterMap id)
        rw [hmn]
        -- the column split around the 7 mandatory columns
        have hndsplit : (((columnNames data).take 7) ++ ((columnNames data).drop 7)).Nodup := by
          rw [List.take_append_drop]; exact hnd
        have hdisj := (List.nodup_append.mp hndsplit).2.2
        have hsub : ∀ a ∈ unmapped_names data, a ∈ (columnNames data).drop 7 := by
          intro a haa
          unfold unmapped_names at haa
          exact (List.mem_filter.mp haa).1
        -- the filter keeps every mandatory column
        have htake : (data.cols.take 7).filter
            (fun c => !(unmapped_names data).contains c.name) = data.cols.take 7 := by
          apply List.filter_eq_self.mpr
          intro c hc7
          cases hx : (unmapped_names data).contains c.name with
          | false => rfl
          | true =>
            exfalso
            have hmem : c.name ∈ unmapped_names data := List.elem_iff.mp hx
            have hnametake : c.name ∈ (columnNames data).take 7 := by
              show c.name ∈ (data.cols.map (fun c => c.name)).take 7
              rw [← List.map_take]
              exact List.mem_map_of_mem (fun c => c.name) hc7
            exact hdisj hnametake (hsub _ hmem)
        -- the filter on the tail keeps exactly the mapped columns
        have htail : (data.cols.drop 7).filter
            (fun c => !(unmapped_names data).contains c.name) =
            (data.cols.drop 7).filter
              (fun c => (build_dref_map c.name).isSome) := by
          apply List.filter_congr
          intro c hcd
          have hnamedrop : c.name ∈ (columnNames data).drop 7 := by
            show c.name ∈ (data.cols.map (fun c => c.name)).drop 7
            rw [← List.map_drop]
            exact List.mem_map_of_mem (fun c => c.name) hcd
          cases hb : build_dref_map c.name with
          | none =>
            have hmem : c.name ∈ unmapped_names data := by
              unfold unmapped_names
              rw [List.mem_filter]
              exact ⟨hnamedrop, by rw [hb]; rfl⟩
            have hcontains : (unmapped_names data).contains c.name = true :=
              List.elem_iff.mpr hmem
            rw [hcontains]
            rfl
          | some b =>
            have hnotmem : c.name ∉ unmapped_names data := by
              intro hmem
              unfold unmapped_names at hmem
              have hno := (List.mem_filter.mp hmem).2
              rw [hb] at hno
              exact Bool.noConfusion hno
            have hcontains : (unmapped_names data).contains c.name = false := by
              cases hx : (unmapped_names data).contains c.name with
              | false => rfl
              | true => exact absurd (List.elem_iff.mp hx) hnotmem
            rw [hcontains]
            rfl
        have hlen7 : (data.cols.take 7).length = 7 := by
          rw [List.length_take]
          have hcl : data.cols.length = data.width := rfl
          omega
        have hfilter : ((drop_many data (unmapped_names data)).cols).drop 7 =
            (data.cols.drop 7).filter (fun c => (build_dref_map c.name).isSome) := by
          show ((data.cols.filter
            (fun c => !(unmapped_names data).contains c.name)).drop 7) = _
          conv_lhs => rw [show data.cols = data.cols.take 7 ++ data.cols.drop 7 from
            (List.take_append_drop 7 data.cols).symm]
          rw [List.filter_append, htake, htail]
          exact List.drop_left' hlen7
        rw [hfilter]
        have hdrefs : (drefs_of data).filterMap id =
            (data.cols.drop 7).filterMap (fun c => build_dref_map c.name) := by
          unfold drefs_of
          rw [show (columnNames data).drop 7 =
              (data.cols.drop 7).map (fun c => c.name) from by
            unfold columnNames; rw [← List.map_drop]]
          rw [List.map_map, List.filterMap_map]
          rfl
        rw [hdrefs]
        exact forall2_filter_filterMap (fun c => build_dref_map c.name) (data.cols.drop 7)

/-- Witness for C5: a 7-column block has no mappings; an 8-column block
with the mapped extra `IAS` gets exactly its dref, positionally aligned. -/
theorem c5_mapping_alignment_witness :
    (7 ≤ c5blkA.data.width ∧ c5blkA.drefs.length = c5blkA.data.width - 7) ∧
    List.Forall₂ (fun c r => build_dref_map c.name = some r)
      (c5blkB.data.cols.drop 7) c5blkB.drefs :=
  ⟨c5_mapping_alignment.1 [] c5tA c5blkA (by decide) (by decide) (by decide),
   c5_mapping_alignment.2 c5tB c5cfg c5blkB rfl (by decide) (by decide)⟩

/-- Splitting never produces an empty piece list. -/
theorem splitChar_ne_nil (c : Char) : ∀ l : List Char, splitChar c l ≠ [] := by
  intro l
  induction l with
  | nil => simp [splitChar]
  | cons x xs ih =>
    show (match splitChar c xs with
      | [] => [[]]
      | s :: rest => if x = c then [] :: s :: rest else (x :: s) :: rest) ≠ []
    cases hs : splitChar c xs with
    | nil => simp
    | cons s rest =>
      show (if x = c then [] :: s :: rest else (x :: s) :: rest) ≠ []
      by_cases hx : x = c
      · rw [if_pos hx]; simp
      · rw [if_neg hx]; simp

/-- Splitting a list free of the separator yields that list alone. -/
theorem splitChar_no_occur (c : Char) : ∀ v : List Char, c ∉ v →
    splitChar c v = [v] := by
  intro v
  induction v with
  | nil => intro _; rfl
  | cons x xs ih =>
    intro hne
    have hxc : ¬ x = c := by
      intro h
      exact hne (by rw [h]; exact List.mem_cons_self c xs)
    have hxs : c ∉ xs := fun h => hne (List.mem_cons_of_mem _ h)
    simp only [splitChar, ih hxs]
    rw [if_neg hxc]

/-- Splitting at the first separator after a separator-free prefix. -/
theorem splitChar_append (c : Char) : ∀ (k v : List Char), c ∉ k →
    splitChar c (k ++ c :: v) = k :: splitChar c v := by
  intro k
  induction k with
  | nil =>
    intro v _
    show splitChar c (c :: v) = [] :: splitChar c v
    rw [show splitChar c (c :: v) =
        (match splitChar c v with
         | [] => [[]]
         | s :: rest => if c = c then [] :: s :: rest else (c :: s) :: rest) from rfl]
    cases hs : splitChar c v with
    | nil => exact absurd hs (splitChar_ne_nil c v)
    | cons s rest =>
      show (if c = c then [] :: s :: rest else (c :: s) :: rest) = [] :: s :: rest
      rw [if_pos rfl]
  | cons x xs ih =>
    intro v hne
    have hxc : ¬ x = c := by
      intro h
      exact hne (by rw [h]; exact List.mem_cons_self c xs)
    have hxs : c ∉ xs := fun h => hne (List.mem_cons_of_mem _ h)
    show splitChar c (x :: (xs ++ c :: v)) = (x :: xs) :: splitChar c v
    rw [show splitChar c (x :: (xs ++ c :: v)) =
        (match splitChar c (xs ++ c :: v) with
         | [] => [[]]
         | s :: rest => if x = c then [] :: s :: rest else (x :: s) :: rest) from rfl]
    rw [ih v hxs]
    show (if x = c then [] :: xs :: splitChar c v else (x :: xs) :: splitChar c v) = _
    rw [if_neg hxc]

/-- Claim C9 (corrected, amended): for a metadata entry `k=v` (no `=` in
key or value), the header parser stores the key trimmed of surrounding
whitespace and the value trimmed only of surrounding quote characters —
the value is not whitespace-trimmed. -/
theorem c9_entry_trims (k v : List Char) (hk : '=' ∉ k) (hv : '=' ∉ v) :
    parse_entry (k ++ '=' :: v) = some (trimWs k, trim_matches '"' v) := by
  unfold parse_entry
  rw [splitChar_append '=' k v hk, splitChar_no_occur '=' v hv]

/-- Witness for C9: a key with leading whitespace is trimmed; a tightly
quoted value loses its quotes. -/
theorem c9_entry_trims_witness :
    parse_entry ((" tail".toList) ++ '=' :: ("\"N1\"".toList)) =
      some (trimWs (" tail".toList), trim_matches '"' ("\"N1\"".toList)) :=
  c9_entry_trims (" tail".toList) ("\"N1\"".toList) (by decide) (by decide)

/-- Claim C9, counterexample to the claim as stated: with whitespace
around the quoted value, the stored value keeps both the whitespace and
the quotes (`trim_matches` only strips quote characters at the very
ends), instead of being trimmed to `N123` as the claim requires. -/
theorem c9_counterexample :
    parse_entry ("tail_number= \"N123\" ".toList) =
      some ("tail_number".toList, (" \"N123\" ".toList)) ∧
    (" \"N123\" ".toList) ≠ ("N123".toList) :=
  ⟨by decide, by decide⟩

end Xfdr
